import Mathlib

/-!
Verification of the Battleship Carnage repository: a shallow embedding of
the client ship kinematics (`src/client/game/entities/Ship.ts`), the
physics engine (`src/client/game/physics/PhysicsEngine.ts`) and the server
game state (`src/server/game/GameState.ts`, `src/server/index.ts`),
together with theorems settling the specification claims.

JavaScript numbers are modelled as exact reals (`ℝ`) on the client side
(where `Math.sqrt`, `Math.PI`, `Math.sin`/`Math.cos` occur) and as exact
rationals (`ℚ`) on the server side (where only assignment and affine
arithmetic occur). `Math.random()` results are passed in as explicit
parameters constrained to `[0, 1)`.
-/

namespace Battleships

/-- 2D vector with real components, embedding the `Vector2` interface of
`shared/types/Vector.ts` as used by the client. -/
structure Vector2 where
  x : ℝ
  y : ℝ

/-- Naval speed settings enum from `Ship.ts`. -/
inductive NavalSpeed where
  | FULL_REVERSE
  | HALF_REVERSE
  | FULL_STOP
  | DEAD_SLOW
  | SLOW
  | HALF
  | FULL
deriving DecidableEq

/-- Numeric value of each naval speed setting (`Ship.ts` enum values). -/
def NavalSpeed.value : NavalSpeed → ℝ
  | .FULL_REVERSE => -0.6
  | .HALF_REVERSE => -0.3
  | .FULL_STOP => 0
  | .DEAD_SLOW => 0.2
  | .SLOW => 0.4
  | .HALF => 0.7
  | .FULL => 1.0

/-- Position of a naval speed setting on the seven-step ladder, from
`FULL_REVERSE` (0) to `FULL` (6). -/
def NavalSpeed.index : NavalSpeed → ℕ
  | .FULL_REVERSE => 0
  | .HALF_REVERSE => 1
  | .FULL_STOP => 2
  | .DEAD_SLOW => 3
  | .SLOW => 4
  | .HALF => 5
  | .FULL => 6

/-- Naval rudder settings enum from `Ship.ts`. -/
inductive RudderSetting where
  | HARD_PORT
  | HALF_PORT
  | MIDSHIPS
  | HALF_STARBOARD
  | HARD_STARBOARD
deriving DecidableEq

/-- Numeric value of each rudder setting (`Ship.ts` enum values). -/
def RudderSetting.value : RudderSetting → ℝ
  | .HARD_PORT => -1.0
  | .HALF_PORT => -0.5
  | .MIDSHIPS => 0.0
  | .HALF_STARBOARD => 0.5
  | .HARD_STARBOARD => 1.0

/-- Ship entity state, embedding the public mutable fields of the `Ship`
class in `src/client/game/entities/Ship.ts`. -/
structure Ship where
  position : Vector2
  rotation : ℝ
  scale : Vector2
  velocity : Vector2
  currentSpeed : ℝ
  maxSpeed : ℝ
  rotationSpeed : ℝ
  acceleration : ℝ
  health : ℝ
  name : String
  targetSpeedSetting : NavalSpeed
  targetSpeed : ℝ
  rudderSetting : RudderSetting
  color : String
  width : ℝ
  height : ℝ

namespace Ship

/-- Turning physics constant `MIN_TURN_FACTOR` of `Ship.ts`. -/
def MIN_TURN_FACTOR : ℝ := 0.2

/-- Turning physics constant `MAX_TURN_FACTOR` of `Ship.ts`. -/
def MAX_TURN_FACTOR : ℝ := 1.0

/-- Turning physics constant `OPTIMAL_TURN_SPEED` of `Ship.ts`. -/
def OPTIMAL_TURN_SPEED : ℝ := 0.6

/-- Turning physics constant `MIN_SPEED_FOR_TURNING` of `Ship.ts`. -/
def MIN_SPEED_FOR_TURNING : ℝ := 0.05

/-- `Ship.setSpeedSetting`: stores the given naval speed setting. -/
def setSpeedSetting (s : Ship) (setting : NavalSpeed) : Ship :=
  { s with targetSpeedSetting := setting }

/-- `Ship.increaseSpeedSetting`: one step up the speed ladder, saturating
at `FULL`. -/
def increaseSpeedSetting (s : Ship) : Ship :=
  match s.targetSpeedSetting with
  | .FULL_REVERSE => s.setSpeedSetting .HALF_REVERSE
  | .HALF_REVERSE => s.setSpeedSetting .FULL_STOP
  | .FULL_STOP => s.setSpeedSetting .DEAD_SLOW
  | .DEAD_SLOW => s.setSpeedSetting .SLOW
  | .SLOW => s.setSpeedSetting .HALF
  | .HALF => s.setSpeedSetting .FULL
  | .FULL => s

/-- `Ship.decreaseSpeedSetting`: one step down the speed ladder,
saturating at `FULL_REVERSE`. -/
def decreaseSpeedSetting (s : Ship) : Ship :=
  match s.targetSpeedSetting with
  | .FULL => s.setSpeedSetting .HALF
  | .HALF => s.setSpeedSetting .SLOW
  | .SLOW => s.setSpeedSetting .DEAD_SLOW
  | .DEAD_SLOW => s.setSpeedSetting .FULL_STOP
  | .FULL_STOP => s.setSpeedSetting .HALF_REVERSE
  | .HALF_REVERSE => s.setSpeedSetting .FULL_REVERSE
  | .FULL_REVERSE => s

/-- `Ship.setRudderSetting`: stores the given rudder setting. -/
def setRudderSetting (s : Ship) (setting : RudderSetting) : Ship :=
  { s with rudderSetting := setting }

/-- `Ship.turnRudderPort`: one step to port, saturating at `HARD_PORT`. -/
def turnRudderPort (s : Ship) : Ship :=
  match s.rudderSetting with
  | .HARD_STARBOARD => s.setRudderSetting .HALF_STARBOARD
  | .HALF_STARBOARD => s.setRudderSetting .MIDSHIPS
  | .MIDSHIPS => s.setRudderSetting .HALF_PORT
  | .HALF_PORT => s.setRudderSetting .HARD_PORT
  | .HARD_PORT => s

/-- `Ship.turnRudderStarboard`: one step to starboard, saturating at
`HARD_STARBOARD`. -/
def turnRudderStarboard (s : Ship) : Ship :=
  match s.rudderSetting with
  | .HARD_PORT => s.setRudderSetting .HALF_PORT
  | .HALF_PORT => s.setRudderSetting .MIDSHIPS
  | .MIDSHIPS => s.setRudderSetting .HALF_STARBOARD
  | .HALF_STARBOARD => s.setRudderSetting .HARD_STARBOARD
  | .HARD_STARBOARD => s

/-- `Ship.takeDamage`: subtracts the damage amount from health.  The
source also returns whether the ship is destroyed (`health <= 0`); the
callers modelled here discard that boolean. -/
def takeDamage (s : Ship) (amount : ℝ) : Ship :=
  { s with health := s.health - amount }

/-- `Ship.updateSpeed`: recomputes `targetSpeed` from the naval speed
setting and moves `currentSpeed` toward it by at most
`acceleration * 15.0 * deltaTime`, clamping at the target, whenever the
difference exceeds `0.01`. -/
noncomputable def updateSpeed (s : Ship) (deltaTime : ℝ) : Ship :=
  let targetSpeed := s.targetSpeedSetting.value * s.maxSpeed
  let s1 := { s with targetSpeed := targetSpeed }
  let speedDiff := targetSpeed - s1.currentSpeed
  if |speedDiff| > 0.01 then
    let changeRate := s1.acceleration * 15.0 * deltaTime
    if speedDiff > 0 then
      { s1 with currentSpeed := min targetSpeed (s1.currentSpeed + changeRate) }
    else
      { s1 with currentSpeed := max targetSpeed (s1.currentSpeed - changeRate) }
  else s1

/-- First normalization loop of `Ship.updateRotation`:
`while (this.rotation < 0) this.rotation += Math.PI * 2`. -/
noncomputable def addTwoPiLoop (x : ℝ) : ℝ :=
  if h : x < 0 then addTwoPiLoop (x + Real.pi * 2) else x
termination_by (⌈-x / (Real.pi * 2)⌉).toNat
decreasing_by
  have hpi : (0:ℝ) < Real.pi * 2 := by positivity
  have hrw : -(x + Real.pi * 2) / (Real.pi * 2) = -x / (Real.pi * 2) - 1 := by
    field_simp
    ring
  have hceil : ⌈-(x + Real.pi * 2) / (Real.pi * 2)⌉ = ⌈-x / (Real.pi * 2)⌉ - 1 := by
    rw [hrw, Int.ceil_sub_one]
  have hpos : 0 < ⌈-x / (Real.pi * 2)⌉ := by
    rw [Int.ceil_pos]
    exact div_pos (by linarith) hpi
  omega

/-- Second normalization loop of `Ship.updateRotation`:
`while (this.rotation >= Math.PI * 2) this.rotation -= Math.PI * 2`. -/
noncomputable def subTwoPiLoop (x : ℝ) : ℝ :=
  if h : x ≥ Real.pi * 2 then subTwoPiLoop (x - Real.pi * 2) else x
termination_by (⌊x / (Real.pi * 2)⌋).toNat
decreasing_by
  have hpi : (0:ℝ) < Real.pi * 2 := by positivity
  have hrw : (x - Real.pi * 2) / (Real.pi * 2) = x / (Real.pi * 2) - 1 := by
    field_simp
  have hfloor : ⌊(x - Real.pi * 2) / (Real.pi * 2)⌋ = ⌊x / (Real.pi * 2)⌋ - 1 := by
    rw [hrw, Int.floor_sub_one]
  have hpos : 0 < ⌊x / (Real.pi * 2)⌋ := by
    have h1 : (1:ℝ) ≤ x / (Real.pi * 2) := (one_le_div hpi).mpr h
    have h2 : ((1:ℤ):ℝ) ≤ x / (Real.pi * 2) := by push_cast; exact h1
    have := Int.le_floor.mpr h2
    omega
  omega

/-- `Ship.updateRotation`: applies the rudder with the bell-curve turn
factor; when the resulting rotation amount is nonzero the new rotation is
renormalized into `[0, 2π)` by the two while loops. -/
noncomputable def updateRotation (s : Ship) (deltaTime : ℝ) : Ship :=
  let absSpeed := |s.currentSpeed / s.maxSpeed|
  if absSpeed < MIN_SPEED_FOR_TURNING then s
  else
    let turnFactorRaw :=
      if absSpeed < OPTIMAL_TURN_SPEED then
        MIN_TURN_FACTOR + (MAX_TURN_FACTOR - MIN_TURN_FACTOR) *
          ((absSpeed - MIN_SPEED_FOR_TURNING) /
            (OPTIMAL_TURN_SPEED - MIN_SPEED_FOR_TURNING))
      else
        MAX_TURN_FACTOR - (MAX_TURN_FACTOR - MIN_TURN_FACTOR) *
          ((absSpeed - OPTIMAL_TURN_SPEED) / (1 - OPTIMAL_TURN_SPEED))
    let turnFactor := max MIN_TURN_FACTOR (min MAX_TURN_FACTOR turnFactorRaw)
    let directionFactor : ℝ := if s.currentSpeed ≥ 0 then 1 else -1
    let rotationAmount := s.rudderSetting.value * s.rotationSpeed *
      turnFactor * directionFactor * deltaTime * 5.0
    if rotationAmount ≠ 0 then
      { s with rotation := subTwoPiLoop (addTwoPiLoop (s.rotation + rotationAmount)) }
    else s

/-- `Ship.applyDrag`: at `FULL_STOP`, decays `currentSpeed` by a factor
`0.1 * deltaTime` when above the `0.01` threshold and snaps it to zero
below. -/
noncomputable def applyDrag (s : Ship) (deltaTime : ℝ) : Ship :=
  if s.targetSpeedSetting = NavalSpeed.FULL_STOP then
    if |s.currentSpeed| > 0.01 then
      { s with currentSpeed := s.currentSpeed - s.currentSpeed * 0.1 * deltaTime }
    else
      { s with currentSpeed := 0 }
  else s

/-- `Ship.update`: speed step, rotation step, velocity from heading and
speed, position integration, drag. -/
noncomputable def update (s : Ship) (deltaTime : ℝ) : Ship :=
  let s1 := s.updateSpeed deltaTime
  let s2 := s1.updateRotation deltaTime
  let velocity : Vector2 :=
    ⟨Real.sin s2.rotation * s2.currentSpeed,
     -Real.cos s2.rotation * s2.currentSpeed⟩
  let s3 := { s2 with velocity := velocity }
  let s4 := { s3 with position :=
    ⟨s3.position.x + velocity.x * deltaTime,
     s3.position.y + velocity.y * deltaTime⟩ }
  s4.applyDrag deltaTime

/-- All fields of the two ships agree except possibly
`targetSpeedSetting`. -/
def EqExceptTargetSpeedSetting (s t : Ship) : Prop :=
  s.position = t.position ∧ s.rotation = t.rotation ∧ s.scale = t.scale ∧
  s.velocity = t.velocity ∧ s.currentSpeed = t.currentSpeed ∧
  s.maxSpeed = t.maxSpeed ∧ s.rotationSpeed = t.rotationSpeed ∧
  s.acceleration = t.acceleration ∧ s.health = t.health ∧ s.name = t.name ∧
  s.targetSpeed = t.targetSpeed ∧ s.rudderSetting = t.rudderSetting ∧
  s.color = t.color ∧ s.width = t.width ∧ s.height = t.height

end Ship

/-- The point of the Euclidean plane corresponding to a `Vector2`, used to
state distance claims against Mathlib's Euclidean metric. -/
noncomputable def Vector2.toPoint (p : Vector2) : EuclideanSpace ℝ (Fin 2) :=
  ![p.x, p.y]

namespace PhysicsEngine

/-- `PhysicsEngine.checkCollision`: circle-based collision test comparing
the distance of the two positions with the sum of the collision radii
(half the larger of width and height of each entity). -/
noncomputable def checkCollision (entityA entityB : Ship) : Prop :=
  let dx := entityA.position.x - entityB.position.x
  let dy := entityA.position.y - entityB.position.y
  let distance := Real.sqrt (dx * dx + dy * dy)
  let radiusA := max entityA.width entityA.height / 2
  let radiusB := max entityB.width entityB.height / 2
  distance < radiusA + radiusB

/-- Relative velocity of `entityB` with respect to `entityA` along the
normalized collision normal, as computed at the top of
`PhysicsEngine.resolveCollision`. -/
noncomputable def velAlongNormal (entityA entityB : Ship) : ℝ :=
  let dx := entityB.position.x - entityA.position.x
  let dy := entityB.position.y - entityA.position.y
  let distance := Real.sqrt (dx * dx + dy * dy)
  let nx := dx / distance
  let ny := dy / distance
  let rvx := entityB.velocity.x - entityA.velocity.x
  let rvy := entityB.velocity.y - entityA.velocity.y
  rvx * nx + rvy * ny

/-- `PhysicsEngine.resolveCollision`: early return when the ships
separate, otherwise impulse exchange with restitution `0.2`, positional
correction when the penetration exceeds the slop `0.01`, and collision
damage above force `1`. -/
noncomputable def resolveCollision (entityA entityB : Ship) : Ship × Ship :=
  let dx := entityB.position.x - entityA.position.x
  let dy := entityB.position.y - entityA.position.y
  let distance := Real.sqrt (dx * dx + dy * dy)
  let nx := dx / distance
  let ny := dy / distance
  let velAN := velAlongNormal entityA entityB
  if velAN > 0 then (entityA, entityB)
  else
    let restitution : ℝ := 0.2
    let impulseScalar := -(1 + restitution) * velAN
    let impulseX := impulseScalar * nx
    let impulseY := impulseScalar * ny
    let a1 := { entityA with velocity :=
      ⟨entityA.velocity.x - impulseX, entityA.velocity.y - impulseY⟩ }
    let b1 := { entityB with velocity :=
      ⟨entityB.velocity.x + impulseX, entityB.velocity.y + impulseY⟩ }
    let percent : ℝ := 0.2
    let slop : ℝ := 0.01
    let radiusA := max entityA.width entityA.height / 2
    let radiusB := max entityB.width entityB.height / 2
    let penetration := (radiusA + radiusB) - distance
    let ab2 :=
      if penetration > slop then
        let correctionX := nx * penetration * percent
        let correctionY := ny * penetration * percent
        ({ a1 with position :=
            ⟨a1.position.x - correctionX / 2, a1.position.y - correctionY / 2⟩ },
         { b1 with position :=
            ⟨b1.position.x + correctionX / 2, b1.position.y + correctionY / 2⟩ })
      else (a1, b1)
    let collisionForce := |velAN| * 5
    if collisionForce > 1 then
      (ab2.1.takeDamage ⌊collisionForce⌋, ab2.2.takeDamage ⌊collisionForce⌋)
    else ab2

end PhysicsEngine

/-- A concrete ship matching the configuration built in
`GameEngine.ts` (maxSpeed 5, rotationSpeed 0.05, acceleration 0.1,
health 100), used to instantiate universally quantified theorems. -/
def testShip : Ship where
  position := ⟨0, 0⟩
  rotation := 0
  scale := ⟨1, 1⟩
  velocity := ⟨0, 0⟩
  currentSpeed := 0
  maxSpeed := 5
  rotationSpeed := 0.05
  acceleration := 0.1
  health := 100
  name := "Tester"
  targetSpeedSetting := .FULL_STOP
  targetSpeed := 0
  rudderSetting := .MIDSHIPS
  color := "#3366FF"
  width := 40
  height := 80

/-- A test ship ordered to `FULL` speed, so that the speed-adjustment
branch of `updateSpeed` is active. -/
def movingShip : Ship :=
  { testShip with targetSpeedSetting := .FULL }

/-- A ship ordered to `FULL` but configured with a negative acceleration:
the `Ship` constructor accepts any number here, and on such a state the
speed step overshoots past the target. -/
def badAccelShip : Ship :=
  { movingShip with acceleration := -1 }

/-- Test ship at the origin and at rest, for collision witnesses. -/
def shipA : Ship :=
  { testShip with name := "A" }

/-- Test ship one unit to the right of `shipA`, moving away from it, for
collision witnesses. -/
def shipB : Ship :=
  { testShip with position := ⟨1, 0⟩, velocity := ⟨1, 0⟩, name := "B" }

/-- Position record of a server player (`{ x: number; y: number }` in
`GameState.ts`), with exact rational coordinates. -/
structure PlayerPosition where
  x : ℚ
  y : ℚ
deriving DecidableEq

/-- Server `Player` interface from `GameState.ts`. -/
structure Player where
  id : String
  name : String
  position : PlayerPosition
  rotation : ℚ
  health : ℚ
  score : ℚ
deriving DecidableEq

/-- Server game state: the private `Map<string, Player>` of the
`GameState` class, modelled as an insertion-ordered association list with
unique keys (the only way the code builds it). -/
structure GameState where
  players : List (String × Player)
deriving DecidableEq

namespace GameState

/-- JS `Map.set`: replaces the value in place when the key is present and
appends the binding otherwise. -/
def mapSet (l : List (String × Player)) (k : String) (v : Player) :
    List (String × Player) :=
  if l.any (fun e => e.1 == k) then
    l.map (fun e => if e.1 == k then (e.1, v) else e)
  else l ++ [(k, v)]

/-- `GameState.addPlayer`: builds the new player record (default name
`Player ⟨size+1⟩` when the supplied name is empty/falsy, random spawn
point `Math.random() * 1000 - 500` per coordinate with the two random
draws passed in as `rx`, `ry`), stores it under the socket id and returns
it. -/
def addPlayer (g : GameState) (socketId : String) (name : String)
    (rx ry : ℚ) : GameState × Player :=
  let player : Player :=
    { id := socketId
      name := if name = "" then "Player " ++ toString (g.players.length + 1)
              else name
      position := ⟨rx * 1000 - 500, ry * 1000 - 500⟩
      rotation := 0
      health := 100
      score := 0 }
  ({ players := mapSet g.players socketId player }, player)

/-- `GameState.removePlayer`: JS `Map.delete` — reports whether the key
was present and removes its entry. -/
def removePlayer (g : GameState) (socketId : String) : Bool × GameState :=
  (g.players.any (fun e => e.1 == socketId),
   { players := g.players.filter (fun e => !(e.1 == socketId)) })

/-- `GameState.getPlayer`: JS `Map.get`, `undefined` as `none`. -/
def getPlayer (g : GameState) (socketId : String) : Option Player :=
  (g.players.find? (fun e => e.1 == socketId)).map (fun e => e.2)

/-- `GameState.getAllPlayers`: `Array.from(this.players.values())`. -/
def getAllPlayers (g : GameState) : List Player :=
  g.players.map (fun e => e.2)

/-- `GameState.updatePlayerPosition`: `false` and no change when the id is
absent, otherwise stores the received position verbatim on that player and
returns `true`. -/
def updatePlayerPosition (g : GameState) (socketId : String)
    (position : PlayerPosition) : Bool × GameState :=
  match g.players.find? (fun e => e.1 == socketId) with
  | none => (false, g)
  | some _ =>
    (true, { players := g.players.map (fun e =>
        if e.1 == socketId then (e.1, { e.2 with position := position })
        else e) })

/-- `GameState.updatePlayerRotation`: `false` and no change when the id is
absent, otherwise stores the received rotation verbatim on that player and
returns `true`. -/
def updatePlayerRotation (g : GameState) (socketId : String)
    (rotation : ℚ) : Bool × GameState :=
  match g.players.find? (fun e => e.1 == socketId) with
  | none => (false, g)
  | some _ =>
    (true, { players := g.players.map (fun e =>
        if e.1 == socketId then (e.1, { e.2 with rotation := rotation })
        else e) })

end GameState

/-- Payload of the `player:moved` broadcast emitted by the `player:move`
handler in `server/index.ts`. -/
structure MoveBroadcast where
  id : String
  position : PlayerPosition
deriving DecidableEq

/-- Payload of the `player:rotated` broadcast emitted by the
`player:rotate` handler in `server/index.ts`. -/
structure RotateBroadcast where
  id : String
  rotation : ℚ
deriving DecidableEq

/-- The `player:move` socket handler of `server/index.ts`: update the
game state and broadcast `{ id, position }` to the other clients exactly
when the update succeeded. -/
def onPlayerMove (g : GameState) (socketId : String)
    (position : PlayerPosition) : GameState × Option MoveBroadcast :=
  let r := g.updatePlayerPosition socketId position
  if r.1 then (r.2, some ⟨socketId, position⟩) else (r.2, none)

/-- The `player:rotate` socket handler of `server/index.ts`: update the
game state and broadcast `{ id, rotation }` to the other clients exactly
when the update succeeded. -/
def onPlayerRotate (g : GameState) (socketId : String)
    (rotation : ℚ) : GameState × Option RotateBroadcast :=
  let r := g.updatePlayerRotation socketId rotation
  if r.1 then (r.2, some ⟨socketId, rotation⟩) else (r.2, none)

/-- A concrete server player for witnesses. -/
def alice : Player where
  id := "a"
  name := "Alice"
  position := ⟨7, 8⟩
  rotation := 1
  health := 100
  score := 0

/-- A concrete game state holding exactly `alice` under key `"a"`. -/
def testState : GameState where
  players := [("a", alice)]

/-- Claim C5: `increaseSpeedSetting` moves `targetSpeedSetting` exactly one
step up the seven-step ladder FULL_REVERSE, HALF_REVERSE, FULL_STOP,
DEAD_SLOW, SLOW, HALF, FULL (a no-op at FULL), `decreaseSpeedSetting`
moves exactly one step down (a no-op at FULL_REVERSE), and neither call
changes any other ship field. -/
theorem claimC5_speed_setting_ladder (s : Ship) :
    s.increaseSpeedSetting.targetSpeedSetting.index =
      min (s.targetSpeedSetting.index + 1) 6 ∧
    s.decreaseSpeedSetting.targetSpeedSetting.index =
      s.targetSpeedSetting.index - 1 ∧
    Ship.EqExceptTargetSpeedSetting s.increaseSpeedSetting s ∧
    Ship.EqExceptTargetSpeedSetting s.decreaseSpeedSetting s := by
  obtain ⟨pos, rot, sc, vel, cur, mx, rs, acc, hp, nm, tss, ts, rud, col, w, h⟩ := s
  refine ⟨?_, ?_, ?_, ?_⟩ <;> cases tss <;>
    simp [Ship.increaseSpeedSetting, Ship.decreaseSpeedSetting,
      Ship.setSpeedSetting, Ship.EqExceptTargetSpeedSetting, NavalSpeed.index]

/-- Claim C7: starboard-then-port restores any rudder setting other than
`HARD_STARBOARD`, and port-then-starboard restores any setting other than
`HARD_PORT` (the rudder moves one step at a time and saturates at the
ends). -/
theorem claimC7_rudder_inverse (s : Ship) :
    (s.rudderSetting ≠ RudderSetting.HARD_STARBOARD →
      s.turnRudderStarboard.turnRudderPort.rudderSetting = s.rudderSetting) ∧
    (s.rudderSetting ≠ RudderSetting.HARD_PORT →
      s.turnRudderPort.turnRudderStarboard.rudderSetting = s.rudderSetting) := by
  obtain ⟨pos, rot, sc, vel, cur, mx, rs, acc, hp, nm, tss, ts, rud, col, w, h⟩ := s
  constructor <;> intro hne <;> cases rud <;>
    simp_all [Ship.turnRudderPort, Ship.turnRudderStarboard,
      Ship.setRudderSetting]

/-- Claim C7 witness: the round trips restore `MIDSHIPS` on a concrete
ship. -/
theorem claimC7_rudder_inverse_witness :
    testShip.rudderSetting ≠ RudderSetting.HARD_STARBOARD ∧
    testShip.rudderSetting ≠ RudderSetting.HARD_PORT ∧
    testShip.turnRudderStarboard.turnRudderPort.rudderSetting =
      testShip.rudderSetting ∧
    testShip.turnRudderPort.turnRudderStarboard.rudderSetting =
      testShip.rudderSetting := by
  have h := claimC7_rudder_inverse testShip
  exact ⟨by decide, by decide, h.1 (by decide), h.2 (by decide)⟩

/-- Closed form of the `currentSpeed` field after `Ship.updateSpeed`. -/
theorem updateSpeed_currentSpeed (s : Ship) (dt : ℝ) :
    (s.updateSpeed dt).currentSpeed =
      if |s.targetSpeedSetting.value * s.maxSpeed - s.currentSpeed| > 0.01 then
        (if s.targetSpeedSetting.value * s.maxSpeed - s.currentSpeed > 0 then
          min (s.targetSpeedSetting.value * s.maxSpeed)
            (s.currentSpeed + s.acceleration * 15.0 * dt)
        else
          max (s.targetSpeedSetting.value * s.maxSpeed)
            (s.currentSpeed - s.acceleration * 15.0 * dt))
      else s.currentSpeed := by
  simp only [Ship.updateSpeed]
  split_ifs <;> rfl

/-- Claim C2, amended to ship states with nonnegative acceleration (the
unamended claim fails on negative acceleration, see the counterexample;
every ship the code configures has acceleration `0.1`): for every such
ship state and every `deltaTime ≥ 0`, whenever
`|targetSpeed - currentSpeed| > 0.01` the speed step of `Ship.update`
moves `currentSpeed` to a value between the old `currentSpeed` and
`targetSpeed = targetSpeedSetting * maxSpeed` (inclusive), changing it by
at most `acceleration * 15.0 * deltaTime`; otherwise it leaves
`currentSpeed` unchanged. -/
theorem claimC2_updateSpeed_moves_toward_target (s : Ship) (dt : ℝ)
    (hdt : 0 ≤ dt) (hacc : 0 ≤ s.acceleration) :
    (|s.targetSpeedSetting.value * s.maxSpeed - s.currentSpeed| > 0.01 →
      min s.currentSpeed (s.targetSpeedSetting.value * s.maxSpeed) ≤
        (s.updateSpeed dt).currentSpeed ∧
      (s.updateSpeed dt).currentSpeed ≤
        max s.currentSpeed (s.targetSpeedSetting.value * s.maxSpeed) ∧
      |(s.updateSpeed dt).currentSpeed - s.currentSpeed| ≤
        s.acceleration * 15.0 * dt) ∧
    (¬ |s.targetSpeedSetting.value * s.maxSpeed - s.currentSpeed| > 0.01 →
      (s.updateSpeed dt).currentSpeed = s.currentSpeed) := by
  have hrate : 0 ≤ s.acceleration * 15.0 * dt := by positivity
  rw [updateSpeed_currentSpeed]
  constructor
  · intro hgt
    rw [if_pos hgt]
    by_cases h2 : s.targetSpeedSetting.value * s.maxSpeed - s.currentSpeed > 0
    · rw [if_pos h2]
      have hlt : s.currentSpeed < s.targetSpeedSetting.value * s.maxSpeed := by
        linarith
      have h3 : min (s.targetSpeedSetting.value * s.maxSpeed)
          (s.currentSpeed + s.acceleration * 15.0 * dt) ≤
          s.currentSpeed + s.acceleration * 15.0 * dt := min_le_right _ _
      have h4 : s.currentSpeed ≤ min (s.targetSpeedSetting.value * s.maxSpeed)
          (s.currentSpeed + s.acceleration * 15.0 * dt) :=
        le_min hlt.le (by linarith)
      refine ⟨?_, ?_, ?_⟩
      · rw [min_eq_left hlt.le]
        exact h4
      · rw [max_eq_right hlt.le]
        exact min_le_left _ _
      · rw [abs_le]
        constructor <;> linarith
    · rw [if_neg h2]
      have hge : s.targetSpeedSetting.value * s.maxSpeed ≤ s.currentSpeed := by
        linarith
      have h3 : s.currentSpeed - s.acceleration * 15.0 * dt ≤
          max (s.targetSpeedSetting.value * s.maxSpeed)
            (s.currentSpeed - s.acceleration * 15.0 * dt) := le_max_right _ _
      have h4 : max (s.targetSpeedSetting.value * s.maxSpeed)
          (s.currentSpeed - s.acceleration * 15.0 * dt) ≤ s.currentSpeed :=
        max_le hge (by linarith)
      refine ⟨?_, ?_, ?_⟩
      · rw [min_eq_right hge]
        exact le_max_left _ _
      · rw [max_eq_left hge]
        exact h4
      · rw [abs_le]
        constructor <;> linarith
  · intro hle
    rw [if_neg hle]

/-- Claim C2 witness: a ship at rest ordered to `FULL` accelerates toward
target speed 5 over one second without overshooting. -/
theorem claimC2_updateSpeed_witness :
    (0:ℝ) ≤ 1 ∧ 0 ≤ movingShip.acceleration ∧
    |movingShip.targetSpeedSetting.value * movingShip.maxSpeed -
      movingShip.currentSpeed| > 0.01 ∧
    (min movingShip.currentSpeed
        (movingShip.targetSpeedSetting.value * movingShip.maxSpeed) ≤
      (movingShip.updateSpeed 1).currentSpeed ∧
    (movingShip.updateSpeed 1).currentSpeed ≤
      max movingShip.currentSpeed
        (movingShip.targetSpeedSetting.value * movingShip.maxSpeed) ∧
    |(movingShip.updateSpeed 1).currentSpeed - movingShip.currentSpeed| ≤
      movingShip.acceleration * 15.0 * 1) := by
  have hacc : (0:ℝ) ≤ movingShip.acceleration := by
    norm_num [movingShip, testShip]
  have hgt : |movingShip.targetSpeedSetting.value * movingShip.maxSpeed -
      movingShip.currentSpeed| > 0.01 := by
    norm_num [movingShip, testShip, NavalSpeed.value]
  exact ⟨by norm_num, hacc, hgt,
    (claimC2_updateSpeed_moves_toward_target movingShip 1 (by norm_num) hacc).1 hgt⟩

/-- Claim C2 counterexample: the claim as stated, over every ship state,
fails for a ship with acceleration `-1`: at rest, ordered to `FULL`
(target speed 5) with `deltaTime = 1 ≥ 0`, the guard
`|targetSpeed - currentSpeed| > 0.01` holds yet `updateSpeed` produces
`min(5, 0 + (-1)*15*1) = -15`, strictly below both the old speed and the
target, so the new speed does not lie between them and the
`acceleration * 15.0 * deltaTime` bound fails as well. -/
theorem claimC2_updateSpeed_counterexample :
    |badAccelShip.targetSpeedSetting.value * badAccelShip.maxSpeed -
      badAccelShip.currentSpeed| > 0.01 ∧
    (badAccelShip.updateSpeed 1).currentSpeed <
      min badAccelShip.currentSpeed
        (badAccelShip.targetSpeedSetting.value * badAccelShip.maxSpeed) ∧
    ¬ |(badAccelShip.updateSpeed 1).currentSpeed -
        badAccelShip.currentSpeed| ≤ badAccelShip.acceleration * 15.0 * 1 := by
  have h := updateSpeed_currentSpeed badAccelShip 1
  refine ⟨?_, ?_, ?_⟩
  · norm_num [badAccelShip, movingShip, testShip, NavalSpeed.value]
  · rw [h]
    norm_num [badAccelShip, movingShip, testShip, NavalSpeed.value]
  · rw [h]
    norm_num [badAccelShip, movingShip, testShip, NavalSpeed.value]

/-- The add-2π loop returns a nonnegative value. -/
theorem Ship.addTwoPiLoop_nonneg (x : ℝ) : 0 ≤ Ship.addTwoPiLoop x := by
  induction x using Ship.addTwoPiLoop.induct with
  | case1 x h ih =>
    rw [Ship.addTwoPiLoop, dif_pos h]
    exact ih
  | case2 x h =>
    rw [Ship.addTwoPiLoop, dif_neg h]
    linarith

/-- The subtract-2π loop returns a value below 2π. -/
theorem Ship.subTwoPiLoop_lt (x : ℝ) : Ship.subTwoPiLoop x < Real.pi * 2 := by
  induction x using Ship.subTwoPiLoop.induct with
  | case1 x h ih =>
    rw [Ship.subTwoPiLoop, dif_pos h]
    exact ih
  | case2 x h =>
    rw [Ship.subTwoPiLoop, dif_neg h]
    linarith

/-- The subtract-2π loop preserves nonnegativity. -/
theorem Ship.subTwoPiLoop_nonneg (x : ℝ) (hx : 0 ≤ x) :
    0 ≤ Ship.subTwoPiLoop x := by
  induction x using Ship.subTwoPiLoop.induct with
  | case1 x h ih =>
    rw [Ship.subTwoPiLoop, dif_pos h]
    have hpi : (0:ℝ) < Real.pi * 2 := by positivity
    exact ih (by linarith)
  | case2 x h =>
    rw [Ship.subTwoPiLoop, dif_neg h]
    exact hx

/-- `Ship.updateSpeed` does not touch the rotation. -/
theorem updateSpeed_rotation (s : Ship) (dt : ℝ) :
    (s.updateSpeed dt).rotation = s.rotation := by
  simp only [Ship.updateSpeed]
  split_ifs <;> rfl

/-- `Ship.applyDrag` does not touch the rotation. -/
theorem applyDrag_rotation (s : Ship) (dt : ℝ) :
    (s.applyDrag dt).rotation = s.rotation := by
  simp only [Ship.applyDrag]
  split_ifs <;> rfl

/-- After `Ship.updateRotation` the rotation is either untouched or
renormalized into `[0, 2π)`. -/
theorem updateRotation_rotation_cases (s : Ship) (dt : ℝ) :
    (s.updateRotation dt).rotation = s.rotation ∨
    (0 ≤ (s.updateRotation dt).rotation ∧
      (s.updateRotation dt).rotation < Real.pi * 2) := by
  simp only [Ship.updateRotation]
  split_ifs <;>
    first
      | (left; rfl)
      | (right;
         exact ⟨Ship.subTwoPiLoop_nonneg _ (Ship.addTwoPiLoop_nonneg _),
           Ship.subTwoPiLoop_lt _⟩)

/-- The rotation after `Ship.update` is the rotation after the
`updateRotation` step; the later steps of `update` do not change it. -/
theorem update_rotation_eq (s : Ship) (dt : ℝ) :
    (s.update dt).rotation = ((s.updateSpeed dt).updateRotation dt).rotation := by
  simp only [Ship.update]
  rw [applyDrag_rotation]

/-- Claim C9: `Ship.update` preserves the invariant
`rotation ∈ [0, 2π)` for every `deltaTime ≥ 0`: `updateRotation` either
leaves the rotation untouched or renormalizes it into `[0, 2π)`, and no
other step of `update` writes the rotation. -/
theorem claimC9_rotation_range_invariant (s : Ship) (dt : ℝ) (hdt : 0 ≤ dt)
    (hlo : 0 ≤ s.rotation) (hhi : s.rotation < Real.pi * 2) :
    0 ≤ (s.update dt).rotation ∧ (s.update dt).rotation < Real.pi * 2 := by
  rw [update_rotation_eq]
  rcases updateRotation_rotation_cases (s.updateSpeed dt) dt with h | h
  · rw [h, updateSpeed_rotation]
    exact ⟨hlo, hhi⟩
  · exact h

/-- Claim C9 witness: the invariant holds concretely for the test ship
over one second. -/
theorem claimC9_rotation_range_witness :
    (0:ℝ) ≤ 1 ∧ 0 ≤ testShip.rotation ∧ testShip.rotation < Real.pi * 2 ∧
    (0 ≤ (testShip.update 1).rotation ∧
      (testShip.update 1).rotation < Real.pi * 2) := by
  have hlo : (0:ℝ) ≤ testShip.rotation := by norm_num [testShip]
  have hhi : testShip.rotation < Real.pi * 2 := by
    show (0:ℝ) < Real.pi * 2
    positivity
  exact ⟨by norm_num, hlo, hhi,
    claimC9_rotation_range_invariant testShip 1 (by norm_num) hlo hhi⟩

/-- Claim C3: `checkCollision` holds if and only if the Euclidean
distance between the two positions is strictly less than
`max(width, height)/2` of the first ship plus `max(width, height)/2` of
the second. -/
theorem claimC3_checkCollision_iff (a b : Ship) :
    PhysicsEngine.checkCollision a b ↔
      dist a.position.toPoint b.position.toPoint <
        max a.width a.height / 2 + max b.width b.height / 2 := by
  have hd : dist a.position.toPoint b.position.toPoint =
      Real.sqrt ((a.position.x - b.position.x) * (a.position.x - b.position.x) +
        (a.position.y - b.position.y) * (a.position.y - b.position.y)) := by
    rw [EuclideanSpace.dist_eq]
    congr 1
    rw [Fin.sum_univ_two]
    simp only [Vector2.toPoint, Matrix.cons_val_zero, Matrix.cons_val_one,
      Matrix.head_cons, Real.dist_eq, sq_abs]
    ring
  simp only [PhysicsEngine.checkCollision]
  rw [hd]

/-- Claim C4: when the ships are at distinct positions and their relative
velocity along the collision normal is positive (they are separating),
`resolveCollision` returns both ships completely unchanged — in
particular positions, velocities and health are untouched. -/
theorem claimC4_resolveCollision_separating (a b : Ship)
    (hpos : a.position ≠ b.position)
    (hsep : PhysicsEngine.velAlongNormal a b > 0) :
    PhysicsEngine.resolveCollision a b = (a, b) := by
  simp only [PhysicsEngine.resolveCollision]
  rw [if_pos hsep]

/-- Claim C4 witness: `shipB` sits one unit to the right of `shipA` and
moves straight away from it; `resolveCollision` leaves the pair alone. -/
theorem claimC4_resolveCollision_separating_witness :
    shipA.position ≠ shipB.position ∧
    PhysicsEngine.velAlongNormal shipA shipB > 0 ∧
    PhysicsEngine.resolveCollision shipA shipB = (shipA, shipB) := by
  have hpos : shipA.position ≠ shipB.position := by
    intro hcon
    have hx := congrArg Vector2.x hcon
    norm_num [shipA, shipB, testShip] at hx
  have hsep : PhysicsEngine.velAlongNormal shipA shipB > 0 := by
    simp only [PhysicsEngine.velAlongNormal, shipA, shipB, testShip]
    norm_num [Real.sqrt_one]
  exact ⟨hpos, hsep, claimC4_resolveCollision_separating shipA shipB hpos hsep⟩

/-- Claim C8: for ships at distinct positions, `resolveCollision` applies
equal and opposite impulses and equal and opposite position corrections,
so the sum of the two velocities and the midpoint of the two positions are
preserved (componentwise). -/
theorem claimC8_resolveCollision_conservation (a b : Ship)
    (hpos : a.position ≠ b.position) :
    ((PhysicsEngine.resolveCollision a b).1.velocity.x +
        (PhysicsEngine.resolveCollision a b).2.velocity.x =
      a.velocity.x + b.velocity.x) ∧
    ((PhysicsEngine.resolveCollision a b).1.velocity.y +
        (PhysicsEngine.resolveCollision a b).2.velocity.y =
      a.velocity.y + b.velocity.y) ∧
    (((PhysicsEngine.resolveCollision a b).1.position.x +
        (PhysicsEngine.resolveCollision a b).2.position.x) / 2 =
      (a.position.x + b.position.x) / 2) ∧
    (((PhysicsEngine.resolveCollision a b).1.position.y +
        (PhysicsEngine.resolveCollision a b).2.position.y) / 2 =
      (a.position.y + b.position.y) / 2) := by
  simp only [PhysicsEngine.resolveCollision, Ship.takeDamage]
  split_ifs <;> refine ⟨?_, ?_, ?_, ?_⟩ <;> dsimp only <;> ring

/-- Claim C8 witness: conservation holds concretely for `shipA` and
`shipB`. -/
theorem claimC8_resolveCollision_conservation_witness :
    shipA.position ≠ shipB.position ∧
    ((PhysicsEngine.resolveCollision shipA shipB).1.velocity.x +
        (PhysicsEngine.resolveCollision shipA shipB).2.velocity.x =
      shipA.velocity.x + shipB.velocity.x) ∧
    ((PhysicsEngine.resolveCollision shipA shipB).1.velocity.y +
        (PhysicsEngine.resolveCollision shipA shipB).2.velocity.y =
      shipA.velocity.y + shipB.velocity.y) ∧
    (((PhysicsEngine.resolveCollision shipA shipB).1.position.x +
        (PhysicsEngine.resolveCollision shipA shipB).2.position.x) / 2 =
      (shipA.position.x + shipB.position.x) / 2) ∧
    (((PhysicsEngine.resolveCollision shipA shipB).1.position.y +
        (PhysicsEngine.resolveCollision shipA shipB).2.position.y) / 2 =
      (shipA.position.y + shipB.position.y) / 2) := by
  have hpos : shipA.position ≠ shipB.position := by
    intro hcon
    have hx := congrArg Vector2.x hcon
    norm_num [shipA, shipB, testShip] at hx
  obtain ⟨h1, h2, h3, h4⟩ :=
    claimC8_resolveCollision_conservation shipA shipB hpos
  exact ⟨hpos, h1, h2, h3, h4⟩

/-- Updating the position of the player stored under `k` commutes with
looking `k` up. -/
theorem find?_map_setPosition (l : List (String × Player)) (k : String)
    (pos : PlayerPosition) :
    (l.map (fun e => if e.1 == k then
        (e.1, { id := e.2.id, name := e.2.name, position := pos,
                rotation := e.2.rotation, health := e.2.health,
                score := e.2.score })
        else e)).find? (fun e => e.1 == k) =
      (l.find? (fun e => e.1 == k)).map
        (fun e => (e.1, { id := e.2.id, name := e.2.name, position := pos,
                          rotation := e.2.rotation, health := e.2.health,
                          score := e.2.score })) := by
  induction l with
  | nil => rfl
  | cons hd tl ih =>
    by_cases h : hd.1 = k
    · simp [List.find?_cons, h]
    · simpa [List.find?_cons, h, -List.find?_map] using ih

/-- Updating the rotation of the player stored under `k` commutes with
looking `k` up. -/
theorem find?_map_setRotation (l : List (String × Player)) (k : String)
    (rot : ℚ) :
    (l.map (fun e => if e.1 == k then
        (e.1, { id := e.2.id, name := e.2.name, position := e.2.position,
                rotation := rot, health := e.2.health,
                score := e.2.score })
        else e)).find? (fun e => e.1 == k) =
      (l.find? (fun e => e.1 == k)).map
        (fun e => (e.1, { id := e.2.id, name := e.2.name,
                          position := e.2.position, rotation := rot,
                          health := e.2.health, score := e.2.score })) := by
  induction l with
  | nil => rfl
  | cons hd tl ih =>
    by_cases h : hd.1 = k
    · simp [List.find?_cons, h]
    · simpa [List.find?_cons, h, -List.find?_map] using ih

/-- Claim C1: the `player:move` and `player:rotate` handlers store the
received position (resp. rotation) verbatim and broadcast it with the
sender's socket id exactly when the game state holds a player under that
socket id; when it does not, the state is unchanged and nothing is
broadcast. -/
theorem claimC1_move_rotate_handlers (g : GameState) (sid : String)
    (pos : PlayerPosition) (rot : ℚ) :
    (∀ p, g.getPlayer sid = some p →
      ((onPlayerMove g sid pos).1.getPlayer sid =
          some { p with position := pos } ∧
        (onPlayerMove g sid pos).2 = some ⟨sid, pos⟩) ∧
      ((onPlayerRotate g sid rot).1.getPlayer sid =
          some { p with rotation := rot } ∧
        (onPlayerRotate g sid rot).2 = some ⟨sid, rot⟩)) ∧
    (g.getPlayer sid = none →
      ((onPlayerMove g sid pos).1 = g ∧ (onPlayerMove g sid pos).2 = none) ∧
      ((onPlayerRotate g sid rot).1 = g ∧
        (onPlayerRotate g sid rot).2 = none)) := by
  constructor
  · intro p hp
    simp only [GameState.getPlayer] at hp
    obtain ⟨e, he, hep⟩ := Option.map_eq_some'.mp hp
    subst hep
    refine ⟨⟨?_, ?_⟩, ⟨?_, ?_⟩⟩
    · simp only [onPlayerMove, GameState.updatePlayerPosition, he,
        GameState.getPlayer, if_true]
      rw [find?_map_setPosition, he]
      rfl
    · simp [onPlayerMove, GameState.updatePlayerPosition, he]
    · simp only [onPlayerRotate, GameState.updatePlayerRotation, he,
        GameState.getPlayer, if_true]
      rw [find?_map_setRotation, he]
      rfl
    · simp [onPlayerRotate, GameState.updatePlayerRotation, he]
  · intro hp
    simp only [GameState.getPlayer, Option.map_eq_none'] at hp
    refine ⟨⟨?_, ?_⟩, ⟨?_, ?_⟩⟩ <;>
      simp [onPlayerMove, onPlayerRotate, GameState.updatePlayerPosition,
        GameState.updatePlayerRotation, hp]

/-- Claim C1 witness: moving and rotating the only player of `testState`
updates her record and broadcasts; the state holds her under `"a"`. -/
theorem claimC1_move_rotate_handlers_witness :
    testState.getPlayer "a" = some alice ∧
    ((onPlayerMove testState "a" ⟨1, 2⟩).1.getPlayer "a" =
        some { alice with position := ⟨1, 2⟩ } ∧
      (onPlayerMove testState "a" ⟨1, 2⟩).2 = some ⟨"a", ⟨1, 2⟩⟩) ∧
    ((onPlayerRotate testState "a" 3).1.getPlayer "a" =
        some { alice with rotation := 3 } ∧
      (onPlayerRotate testState "a" 3).2 = some ⟨"a", 3⟩) := by
  have h : testState.getPlayer "a" = some alice := by decide
  obtain ⟨hm, hr⟩ :=
    (claimC1_move_rotate_handlers testState "a" ⟨1, 2⟩ 3).1 alice h
  exact ⟨h, hm, hr⟩

/-- Deleting key `sid` from the map leaves lookups of any other key
unchanged. -/
theorem find?_filter_ne (l : List (String × Player)) (sid sid2 : String)
    (hne : sid2 ≠ sid) :
    (l.filter (fun e => !(e.1 == sid))).find? (fun e => e.1 == sid2) =
      l.find? (fun e => e.1 == sid2) := by
  induction l with
  | nil => rfl
  | cons hd tl ih =>
    by_cases h : hd.1 = sid
    · have h4 : ¬(sid = sid2) := fun hc => hne hc.symm
      have h2 : ¬(hd.1 = sid2) := by
        rw [h]
        exact h4
      simp only [List.filter_cons]
      simpa [h, h2, h4, List.find?_cons, -List.find?_filter] using ih
    · by_cases h3 : hd.1 = sid2
      · simp [List.filter_cons, List.find?_cons, h, h3, hne]
      · simp only [List.filter_cons]
        simpa [h, h3, List.find?_cons, -List.find?_filter] using ih

/-- Claim C6: `removePlayer` returns `true` exactly when a player with the
given socket id was present; afterwards `getPlayer` on that id is `none`
and `getAllPlayers` holds no player with that id (assuming the invariant
that stored players carry their key as `id`, which every state built by
the API satisfies); every other player's entry is unchanged. -/
theorem claimC6_removePlayer_spec (g : GameState) (sid : String) :
    ((g.removePlayer sid).1 = true ↔ (g.getPlayer sid).isSome = true) ∧
    (g.removePlayer sid).2.getPlayer sid = none ∧
    ((∀ e ∈ g.players, e.2.id = e.1) →
      ∀ p ∈ (g.removePlayer sid).2.getAllPlayers, p.id ≠ sid) ∧
    (∀ sid2, sid2 ≠ sid →
      (g.removePlayer sid).2.getPlayer sid2 = g.getPlayer sid2) := by
  refine ⟨?_, ?_, ?_, ?_⟩
  · simp [GameState.removePlayer, GameState.getPlayer, List.any_eq_true,
      Option.isSome_map', List.find?_isSome]
  · simp only [GameState.removePlayer, GameState.getPlayer,
      Option.map_eq_none']
    rw [List.find?_eq_none]
    intro e he
    simpa using (List.mem_filter.mp he).2
  · intro hcoh p hpmem
    simp only [GameState.removePlayer, GameState.getAllPlayers] at hpmem
    obtain ⟨e, hemem, hep⟩ := List.mem_map.mp hpmem
    have h2 := List.mem_filter.mp hemem
    have hid := hcoh e h2.1
    intro hps
    apply absurd h2.2
    have hkey : e.1 = sid := by rw [← hid, hep, hps]
    simp [hkey]
  · intro sid2 hne
    simp only [GameState.removePlayer, GameState.getPlayer]
    rw [find?_filter_ne _ _ _ hne]

/-- Claim C6 witness: removing `"a"` from `testState` reports success,
empties the map of her entry, and leaves the (absent) key `"b"`
unchanged. -/
theorem claimC6_removePlayer_witness :
    ((testState.removePlayer "a").1 = true ↔
      (testState.getPlayer "a").isSome = true) ∧
    (testState.removePlayer "a").2.getPlayer "a" = none ∧
    (∀ e ∈ testState.players, e.2.id = e.1) ∧
    (∀ p ∈ (testState.removePlayer "a").2.getAllPlayers, p.id ≠ "a") ∧
    ("b" : String) ≠ "a" ∧
    (testState.removePlayer "a").2.getPlayer "b" = testState.getPlayer "b" := by
  obtain ⟨h1, h2, h3, h4⟩ := claimC6_removePlayer_spec testState "a"
  have hcoh : ∀ e ∈ testState.players, e.2.id = e.1 := by decide
  exact ⟨h1, h2, hcoh, h3 hcoh, by decide, h4 "b" (by decide)⟩

/-- Claim C10: every player built by `addPlayer` starts with health 100,
score 0, rotation 0, id equal to the joining socket's id, spawn
coordinates `r * 1000 - 500 ∈ [-500, 500)` for random draws
`r ∈ [0, 1)`, and — when the supplied name is empty — the default name
`Player N` with `N` one more than the number of players present before
the call. -/
theorem claimC10_addPlayer_spec (g : GameState) (sid pname : String)
    (rx ry : ℚ) (hx0 : 0 ≤ rx) (hx1 : rx < 1) (hy0 : 0 ≤ ry) (hy1 : ry < 1) :
    (g.addPlayer sid pname rx ry).2.health = 100 ∧
    (g.addPlayer sid pname rx ry).2.score = 0 ∧
    (g.addPlayer sid pname rx ry).2.rotation = 0 ∧
    (g.addPlayer sid pname rx ry).2.id = sid ∧
    (-500 ≤ (g.addPlayer sid pname rx ry).2.position.x ∧
      (g.addPlayer sid pname rx ry).2.position.x < 500) ∧
    (-500 ≤ (g.addPlayer sid pname rx ry).2.position.y ∧
      (g.addPlayer sid pname rx ry).2.position.y < 500) ∧
    (pname = "" → (g.addPlayer sid pname rx ry).2.name =
      "Player " ++ toString (g.players.length + 1)) := by
  refine ⟨rfl, rfl, rfl, rfl, ⟨?_, ?_⟩, ⟨?_, ?_⟩, ?_⟩
  · show -500 ≤ rx * 1000 - 500
    linarith
  · show rx * 1000 - 500 < 500
    linarith
  · show -500 ≤ ry * 1000 - 500
    linarith
  · show ry * 1000 - 500 < 500
    linarith
  · intro h
    show (if pname = "" then "Player " ++ toString (g.players.length + 1)
          else pname) = "Player " ++ toString (g.players.length + 1)
    rw [if_pos h]

/-- Claim C10 witness: adding a nameless player under socket `"b"` to the
one-player `testState` with random draws `1/2` and `1/3`. -/
theorem claimC10_addPlayer_witness :
    (0:ℚ) ≤ 1/2 ∧ (1/2:ℚ) < 1 ∧ (0:ℚ) ≤ 1/3 ∧ (1/3:ℚ) < 1 ∧
    (testState.addPlayer "b" "" (1/2) (1/3)).2.health = 100 ∧
    (testState.addPlayer "b" "" (1/2) (1/3)).2.score = 0 ∧
    (testState.addPlayer "b" "" (1/2) (1/3)).2.rotation = 0 ∧
    (testState.addPlayer "b" "" (1/2) (1/3)).2.id = "b" ∧
    (-500 ≤ (testState.addPlayer "b" "" (1/2) (1/3)).2.position.x ∧
      (testState.addPlayer "b" "" (1/2) (1/3)).2.position.x < 500) ∧
    (-500 ≤ (testState.addPlayer "b" "" (1/2) (1/3)).2.position.y ∧
      (testState.addPlayer "b" "" (1/2) (1/3)).2.position.y < 500) ∧
    (testState.addPlayer "b" "" (1/2) (1/3)).2.name =
      "Player " ++ toString (testState.players.length + 1) := by
  obtain ⟨c1, c2, c3, c4, c5, c6, c7⟩ :=
    claimC10_addPlayer_spec testState "b" "" (1/2) (1/3)
      (by norm_num) (by norm_num) (by norm_num) (by norm_num)
  exact ⟨by norm_num, by norm_num, by norm_num, by norm_num,
    c1, c2, c3, c4, c5, c6, c7 rfl⟩

end Battleships
